import Mathlib

/-!
Verification of the label layout system of `src/lib/label-layout.ts`
(idyll-sankey): the spatial grid used for collision detection, the text
measurement cache, and the greedy label layout engine
`LabelLayoutManager.computeNodeLabelLayouts`.

Embedding conventions:
* JavaScript numbers are modelled as `ℚ` (all arithmetic performed by the
  engine is field arithmetic and `Math.floor`, except for `Math.cos`/`Math.sin`
  in the detached-placement spiral, which are transcendental; the eight
  direction vectors `(Math.cos rad, Math.sin rad)` are therefore passed as an
  explicit parameter `dirs : List (ℚ × ℚ)`, and theorems that depend on them
  being unit vectors take `c^2 + s^2 = 1` as a hypothesis).
* The spatial grid's `Map<string, LabelLayout[]>` keyed by the string
  `"cx,cy"` is modelled as a function `ℤ × ℤ → List LabelLayout`
  (the string encoding of an integer pair is injective).
* The text cache's `Map<string, number>` is modelled as an association list
  with first-match lookup and insert-on-miss, which matches `Map.has` /
  `Map.get` / `Map.set` semantics for the access pattern of the code.
* The measurement backend `ctx.measureText` (with `ctx.font` set first) is a
  parameter `backend : String → String → ℚ` taking font and text.
* `[...nodes].sort(cmp)` with comparator `bHeight - aHeight` is modelled by a
  stable merge sort with `le a b := heightOf b ≤ heightOf a` (ECMAScript
  `Array.prototype.sort` is stable, and `a` is kept before `b` exactly when
  `cmp a b ≤ 0`, i.e. `heightOf b ≤ heightOf a`).
-/

namespace IdyllSankey

/-- Text measurement cache contents: association list from key to width. -/
abbrev Cache := List (String × ℚ)

/-- A Sankey node as consumed by the label layout engine
(`SankeyNode` of `src/lib/types.ts`): an id and optional geometry. -/
structure SankeyNode where
  id : String
  x0 : Option ℚ
  x1 : Option ℚ
  y0 : Option ℚ
  y1 : Option ℚ
deriving DecidableEq

/-- A positioned label with collision bounds (`LabelLayout` of
`src/lib/label-layout.ts`). -/
structure LabelLayout where
  text : String
  x : ℚ
  y : ℚ
  width : ℚ
  height : ℚ
  anchorX : ℚ
  anchorY : ℚ
  hasLeaderLine : Bool
  nodeOrLinkId : String
  priority : ℚ
deriving DecidableEq

/-- Configuration options (`LabelLayoutOptions` of `src/lib/label-layout.ts`). -/
structure LabelLayoutOptions where
  minLabelHeight : ℚ
  fontSize : ℚ
  fontFamily : String
  padding : ℚ
  leaderLineThreshold : ℚ
  canvasWidth : ℚ
  canvasHeight : ℚ
  enableHoverLabels : Bool
  enableDetachedLabels : Bool

/-- The list of integers from `a` to `b` inclusive (empty when `b < a`);
models the loop `for (let c = a; c <= b; c++)`. -/
def intRange (a b : ℤ) : List ℤ :=
  (List.range (b + 1 - a).toNat).map (fun i : ℕ => a + (i : ℤ))

/-- The spatial grid (`SpatialGrid` of `src/lib/label-layout.ts`): a cell size
and a map from cell coordinates to the labels registered in that cell. -/
structure SpatialGrid where
  cellSize : ℚ
  grid : ℤ × ℤ → List LabelLayout

/-- `SpatialGrid.getCellsForBounds`: all cells touched by the rectangle. -/
def getCellsForBounds (cellSize x y width height : ℚ) : List (ℤ × ℤ) :=
  let minCellX := Rat.floor (x / cellSize)
  let maxCellX := Rat.floor ((x + width) / cellSize)
  let minCellY := Rat.floor (y / cellSize)
  let maxCellY := Rat.floor ((y + height) / cellSize)
  (intRange minCellX maxCellX).flatMap
    (fun cx => (intRange minCellY maxCellY).map (fun cy => (cx, cy)))

/-- `SpatialGrid.insert`: register a label in every cell its bounds touch. -/
def SpatialGrid.insert (g : SpatialGrid) (label : LabelLayout) : SpatialGrid :=
  let cells := getCellsForBounds g.cellSize label.x label.y label.width label.height
  { cellSize := g.cellSize
    grid := fun c => if c ∈ cells then g.grid c ++ [label] else g.grid c }

/-- The exact AABB collision test performed inside
`SpatialGrid.checkCollision` for one registered label (strict inequalities:
touching edges do not collide). -/
def rectOverlapB (x y width height : ℚ) (label : LabelLayout) : Bool :=
  decide (x < label.x + label.width) && decide (x + width > label.x) &&
  decide (y < label.y + label.height) && decide (y + height > label.y)

/-- `SpatialGrid.checkCollision`: scan the cells touched by the query
rectangle and test every label registered there. -/
def SpatialGrid.checkCollision (g : SpatialGrid) (x y width height : ℚ) : Bool :=
  (getCellsForBounds g.cellSize x y width height).any fun c =>
    (g.grid c).any fun label => rectOverlapB x y width height label

/-- `SpatialGrid.clear`: empty every bucket, keep the cell size. -/
def SpatialGrid.clear (g : SpatialGrid) : SpatialGrid :=
  { cellSize := g.cellSize, grid := fun _ => [] }

/-- The `SpatialGrid` constructor. The TypeScript constructor body only
assigns fields and has no `throw` path; the `Except` result type makes the
absence of a rejection path explicit (the error branch is never taken). -/
def SpatialGrid.construct (cellSize : ℚ) : Except String SpatialGrid :=
  Except.ok { cellSize := cellSize, grid := fun _ => [] }

/-- The cache key built by `TextMeasurementCache.measureText`:
the template string of font and text joined by a colon. -/
def measureKey (font text : String) : String := font ++ ":" ++ text

/-- First-match lookup in the cache association list (`Map.has`/`Map.get`). -/
def cacheLookup : Cache → String → Option ℚ
  | [], _ => none
  | (k, v) :: rest, key => if k = key then some v else cacheLookup rest key

/-- `TextMeasurementCache.measureText`: return the cached width when the key
has been seen, otherwise measure with the backend, store, and return. -/
def measureText (backend : String → String → ℚ) (cache : Cache)
    (text font : String) : ℚ × Cache :=
  match cacheLookup cache (measureKey font text) with
  | some v => (v, cache)
  | none =>
    let width := backend font text
    (width, (measureKey font text, width) :: cache)

/-- The label layout manager state (`LabelLayoutManager`): a spatial grid, a
text measurement cache and the configuration options. -/
structure LabelLayoutManager where
  spatialGrid : SpatialGrid
  cache : Cache
  options : LabelLayoutOptions

/-- The `LabelLayoutManager` constructor: builds a fresh grid with the default
cell size 50 and an empty cache. Like `SpatialGrid.construct`, the source
constructor body has no `throw` path, so the error branch is never taken. -/
def LabelLayoutManager.construct (options : LabelLayoutOptions) :
    Except String LabelLayoutManager :=
  Except.ok
    { spatialGrid := { cellSize := 50, grid := fun _ => [] }
      cache := []
      options := options }

/-- The font string built once per layout pass:
the template string of font size, "px " and font family. -/
def fontOf (options : LabelLayoutOptions) : String :=
  toString options.fontSize ++ "px " ++ options.fontFamily

/-- The sort key of the comparator in `computeNodeLabelLayouts`:
`(n.y1 || 0) - (n.y0 || 0)`. -/
def heightOf (n : SankeyNode) : ℚ := n.y1.getD 0 - n.y0.getD 0

/-- The order induced by the comparator `bHeight - aHeight`: `a` may stay
before `b` exactly when the comparator is nonpositive. -/
def nodeOrder (a b : SankeyNode) : Prop := heightOf b ≤ heightOf a

instance : DecidableRel nodeOrder := fun a b =>
  inferInstanceAs (Decidable (heightOf b ≤ heightOf a))

instance : IsTotal SankeyNode nodeOrder := ⟨fun a b => le_total (heightOf b) (heightOf a)⟩

instance : IsTrans SankeyNode nodeOrder := ⟨fun _ _ _ h1 h2 => le_trans h2 h1⟩

/-- The stable descending-height sort `[...nodes].sort((a, b) => bH - aH)`.
ECMAScript `sort` is stable, and under a total preorder the stable sorted
permutation of a list is unique, so any stable sort models it faithfully;
a structurally recursive insertion sort is used here. -/
def sortedNodesByHeight (nodes : List SankeyNode) : List SankeyNode :=
  nodes.insertionSort nodeOrder

/-- The minimal unplaced record pushed by `computeNodeLabelLayouts` for nodes
that are too small or could not be placed. -/
def unplacedRecord (options : LabelLayoutOptions) (textWidth x0 x1 y0 y1 : ℚ)
    (nodeId : String) : LabelLayout :=
  { text := nodeId
    x := 0
    y := 0
    width := textWidth + options.padding * 2
    height := options.fontSize + options.padding * 2
    anchorX := (x0 + x1) / 2
    anchorY := (y0 + y1) / 2
    hasLeaderLine := false
    nodeOrLinkId := nodeId
    priority := y1 - y0 }

/-- The bounds-and-collision acceptance test shared by the placement loops:
a candidate at `(x, y)` is rejected when it leaves the canvas or collides. -/
def acceptPos (options : LabelLayoutOptions) (grid : SpatialGrid)
    (x y labelWidth labelHeight : ℚ) : Bool :=
  !(decide (x < 0) || decide (x + labelWidth > options.canvasWidth) ||
    decide (y < 0) || decide (y + labelHeight > options.canvasHeight)) &&
  !(grid.checkCollision x y labelWidth labelHeight)

/-- `LabelLayoutManager.tryPlaceNodeLabel`: try the two inline positions
(right of the node first when it sits in the left half of the canvas). -/
def tryPlaceNodeLabel (backend : String → String → ℚ)
    (options : LabelLayoutOptions) (grid : SpatialGrid) (cache : Cache)
    (font : String) (node : SankeyNode) : Option LabelLayout × Cache :=
  match node.x0, node.x1, node.y0, node.y1 with
  | some x0, some x1, some y0, some y1 =>
    let m := measureText backend cache node.id font
    let labelWidth := m.1 + options.padding * 2
    let labelHeight := options.fontSize + options.padding * 2
    let nodeHeight := y1 - y0
    let anchorX := (x0 + x1) / 2
    let anchorY := (y0 + y1) / 2
    let isLeftSide := decide (x0 < options.canvasWidth / 2)
    let positions : List (ℚ × ℚ) :=
      if isLeftSide then
        [(x1 + 6, anchorY - labelHeight / 2), (x0 - labelWidth - 6, anchorY - labelHeight / 2)]
      else
        [(x0 - labelWidth - 6, anchorY - labelHeight / 2), (x1 + 6, anchorY - labelHeight / 2)]
    match positions.find? (fun pos => acceptPos options grid pos.1 pos.2 labelWidth labelHeight) with
    | some pos =>
      (some { text := node.id
              x := pos.1
              y := pos.2
              width := labelWidth
              height := labelHeight
              anchorX := anchorX
              anchorY := anchorY
              hasLeaderLine := false
              nodeOrLinkId := node.id
              priority := nodeHeight }, m.2)
    | none => (none, m.2)
  | _, _, _, _ => (none, cache)

/-- The ring distances of the detached spiral:
`for (let distance = 15; distance <= maxDistance; distance += 15)`. -/
def detachedDistances (maxDistance : ℚ) : List ℚ :=
  (List.range (Rat.floor (maxDistance / 15)).toNat).map (fun i : ℕ => 15 * ((i : ℚ) + 1))

/-- `LabelLayoutManager.tryDetachedPlacement`: scan rings of increasing
distance, and on each ring the direction vectors in order, taking the first
in-bounds non-colliding candidate. `dirs` carries the unit vectors
`(Math.cos rad, Math.sin rad)` of the eight compass angles. -/
def tryDetachedPlacement (backend : String → String → ℚ)
    (dirs : List (ℚ × ℚ)) (options : LabelLayoutOptions) (grid : SpatialGrid)
    (cache : Cache) (font : String) (node : SankeyNode) :
    Option LabelLayout × Cache :=
  match node.x0, node.x1, node.y0, node.y1 with
  | some x0, some x1, some y0, some y1 =>
    let m := measureText backend cache node.id font
    let labelWidth := m.1 + options.padding * 2
    let labelHeight := options.fontSize + options.padding * 2
    let anchorX := (x0 + x1) / 2
    let anchorY := (y0 + y1) / 2
    let candidates := (detachedDistances options.leaderLineThreshold).flatMap
      (fun distance => dirs.map (fun dir => (distance, dir)))
    let posOf := fun (cand : ℚ × ℚ × ℚ) =>
      (anchorX + cand.2.1 * cand.1 - labelWidth / 2,
       anchorY + cand.2.2 * cand.1 - labelHeight / 2)
    match candidates.find?
        (fun cand => acceptPos options grid (posOf cand).1 (posOf cand).2 labelWidth labelHeight) with
    | some cand =>
      (some { text := node.id
              x := (posOf cand).1
              y := (posOf cand).2
              width := labelWidth
              height := labelHeight
              anchorX := anchorX
              anchorY := anchorY
              hasLeaderLine := true
              nodeOrLinkId := node.id
              priority := y1 - y0 }, m.2)
    | none => (none, m.2)
  | _, _, _, _ => (none, cache)

/-- The running state of the loop body of `computeNodeLabelLayouts`. -/
structure RunState where
  grid : SpatialGrid
  placed : List LabelLayout
  unplaced : List LabelLayout
  cache : Cache

/-- One iteration of the node loop of `computeNodeLabelLayouts`. -/
def processNode (backend : String → String → ℚ) (dirs : List (ℚ × ℚ))
    (options : LabelLayoutOptions) (font : String) (st : RunState)
    (node : SankeyNode) : RunState :=
  match node.x0, node.x1, node.y0, node.y1 with
  | some x0, some x1, some y0, some y1 =>
    let nodeHeight := y1 - y0
    if nodeHeight < options.minLabelHeight then
      let m := measureText backend st.cache node.id font
      { st with
        unplaced := st.unplaced ++ [unplacedRecord options m.1 x0 x1 y0 y1 node.id]
        cache := m.2 }
    else
      match tryPlaceNodeLabel backend options st.grid st.cache font node with
      | (some label, cache1) =>
        { st with
          placed := st.placed ++ [label]
          grid := st.grid.insert label
          cache := cache1 }
      | (none, cache1) =>
        if options.enableDetachedLabels then
          match tryDetachedPlacement backend dirs options st.grid cache1 font node with
          | (some detachedLabel, cache2) =>
            { st with
              placed := st.placed ++ [detachedLabel]
              grid := st.grid.insert detachedLabel
              cache := cache2 }
          | (none, cache2) =>
            let m := measureText backend cache2 node.id font
            { st with
              unplaced := st.unplaced ++ [unplacedRecord options m.1 x0 x1 y0 y1 node.id]
              cache := m.2 }
        else
          { st with cache := cache1 }
  | _, _, _, _ => st

/-- `LabelLayoutManager.computeNodeLabelLayouts`: clear the grid, seed the
existing labels, sort the nodes by descending height, and process each node
in order. The result carries the placed and unplaced lists together with the
final grid and cache state. -/
def computeNodeLabelLayouts (backend : String → String → ℚ)
    (dirs : List (ℚ × ℚ)) (options : LabelLayoutOptions)
    (nodes : List SankeyNode) (existingLabels : List LabelLayout)
    (cache0 : Cache) : RunState :=
  let grid0 := existingLabels.foldl SpatialGrid.insert
    (SpatialGrid.clear { cellSize := 50, grid := fun _ => [] })
  (sortedNodesByHeight nodes).foldl
    (processNode backend dirs options (fontOf options))
    { grid := grid0, placed := [], unplaced := [], cache := cache0 }

/-- Strict rectangle overlap against a registered label, as a proposition. -/
def overlapsRect (x y w h : ℚ) (l : LabelLayout) : Prop :=
  x < l.x + l.width ∧ x + w > l.x ∧ y < l.y + l.height ∧ y + h > l.y

/-- A label is somewhere in the grid. -/
def memGrid (g : SpatialGrid) (l : LabelLayout) : Prop := ∃ c, l ∈ g.grid c

/-- A label is registered in every cell its bounds touch. -/
def registered (g : SpatialGrid) (l : LabelLayout) : Prop :=
  ∀ c ∈ getCellsForBounds g.cellSize l.x l.y l.width l.height, l ∈ g.grid c

/-- Well-formedness of the grid as maintained by the engine: cell size is the
default 50, and every label in the grid is fully registered and has
nonnegative extent. -/
def GridInv (g : SpatialGrid) : Prop :=
  g.cellSize = 50 ∧
    ∀ l, memGrid g l → registered g l ∧ 0 ≤ l.width ∧ 0 ≤ l.height

/-- Every cached width is nonnegative. -/
def CacheNonneg (c : Cache) : Prop := ∀ kv ∈ c, 0 ≤ kv.2

/-- The bounds condition of the claims: a label lies fully on the canvas. -/
def inCanvas (o : LabelLayoutOptions) (l : LabelLayout) : Prop :=
  0 ≤ l.x ∧ 0 ≤ l.y ∧ l.x + l.width ≤ o.canvasWidth ∧
    l.y + l.height ≤ o.canvasHeight

/-- Disjointness of two labels under the strict AABB test of the grid. -/
def labDisjoint (a b : LabelLayout) : Prop :=
  ¬ overlapsRect a.x a.y a.width a.height b

/-- Every output label comes from an input node whose four coordinates are
all defined, and carries that node's id. -/
def originOk (nodes : List SankeyNode) (lab : LabelLayout) : Prop :=
  ∃ n ∈ nodes, n.x0.isSome ∧ n.x1.isSome ∧ n.y0.isSome ∧ n.y1.isSome ∧
    lab.nodeOrLinkId = n.id ∧ lab.text = n.id

/-- The running no-overlap invariant of the engine loop. -/
def NoOverlapInv (existing : List LabelLayout) (st : RunState) : Prop :=
  GridInv st.grid ∧ CacheNonneg st.cache ∧
  st.placed.Pairwise labDisjoint ∧
  (∀ p ∈ st.placed, ∀ e ∈ existing, labDisjoint p e) ∧
  (∀ p ∈ st.placed, memGrid st.grid p) ∧
  (∀ e ∈ existing, memGrid st.grid e)

/-- The grid state after the reset and the seeding of the existing labels at
the start of `computeNodeLabelLayouts`. -/
def seededGrid (existing : List LabelLayout) : SpatialGrid :=
  existing.foldl SpatialGrid.insert
    (SpatialGrid.clear { cellSize := 50, grid := fun _ => [] })

/-- The engine state at the start of the node loop: seeded grid, empty
result lists, and the current measurement cache. -/
def initState (existing : List LabelLayout) (c0 : Cache) : RunState :=
  { grid := seededGrid existing, placed := [], unplaced := [], cache := c0 }

/-- A measurement backend mirroring the repository's test mock:
8 pixels per character. -/
def pxBackend : String → String → ℚ := fun _ t => 8 * (t.length : ℚ)

/-- The configuration used throughout the repository's tests. -/
def stdOpts : LabelLayoutOptions :=
  { minLabelHeight := 8, fontSize := 12, fontFamily := "sans-serif"
    padding := 4, leaderLineThreshold := 100, canvasWidth := 960
    canvasHeight := 600, enableHoverLabels := true
    enableDetachedLabels := true }

/-- The four axis-aligned unit direction vectors (a concrete instance of the
direction-vector parameter whose entries are exactly representable in `ℚ`). -/
def axisDirs : List (ℚ × ℚ) := [(1, 0), (0, 1), (-1, 0), (0, -1)]

/-- A 30-pixel-wide canvas with detached labels disabled: labels of the test
backend are 16 wide, so neither inline position of a node at `x ∈ [0, 10]`
fits, and with detached placement off the engine reaches no push at all. -/
def narrowOpts : LabelLayoutOptions :=
  { minLabelHeight := 8, fontSize := 12, fontFamily := "sans-serif"
    padding := 4, leaderLineThreshold := 100, canvasWidth := 30
    canvasHeight := 600, enableHoverLabels := true
    enableDetachedLabels := false }

/-- Same narrow canvas with detached labels enabled. -/
def narrowDetOpts : LabelLayoutOptions :=
  { minLabelHeight := 8, fontSize := 12, fontFamily := "sans-serif"
    padding := 4, leaderLineThreshold := 100, canvasWidth := 30
    canvasHeight := 600, enableHoverLabels := true
    enableDetachedLabels := true }

/-- A tall node with fully defined geometry near the left edge. -/
def tallNode : SankeyNode :=
  { id := "A", x0 := some 0, x1 := some 10, y0 := some 0, y1 := some 100 }

/-- A node with reversed vertical geometry (`y1 < y0`). -/
def revNode : SankeyNode :=
  { id := "R", x0 := some 0, x1 := some 10, y0 := some 10, y1 := some 5 }

/-- Configuration with non-positive canvas dimensions. -/
def badOpts : LabelLayoutOptions :=
  { minLabelHeight := 8, fontSize := 12, fontFamily := "sans-serif"
    padding := 4, leaderLineThreshold := 100, canvasWidth := 0
    canvasHeight := -5, enableHoverLabels := true
    enableDetachedLabels := true }

/-- The ring property of a detached label: the squared distance from the
anchor to the center of the bounding box is the square of a positive
multiple of the 15-unit ring step, bounded by the leader-line threshold. -/
def RingProp (o : LabelLayoutOptions) (p : LabelLayout) : Prop :=
  ∃ k : ℕ, 1 ≤ k ∧
    ((p.x + p.width / 2) - p.anchorX) ^ 2 +
      ((p.y + p.height / 2) - p.anchorY) ^ 2 = ((15 * k : ℚ)) ^ 2 ∧
    ((15 * k : ℚ)) ≤ o.leaderLineThreshold

/-- A string containing no colon character. -/
abbrev ColonFree (s : String) : Prop := ':' ∉ s.data

/-- Faithfulness of a cache with respect to the backend: every stored entry
whose key decomposes with a colon-free font holds exactly the backend's
width for that (font, text) pair. -/
def CacheFaithful (backend : String → String → ℚ) (c : Cache) : Prop :=
  ∀ f t v, ColonFree f → cacheLookup c (measureKey f t) = some v →
    v = backend f t

/-- A backend measuring text length, used to exhibit the key collision. -/
def lenBackend : String → String → ℚ := fun _ t => (t.length : ℚ)

/-- The width `measureText` returns from cache `c` for `(font, t)`:
the stored value on a hit, the backend's width on a miss. -/
def mval (backend : String → String → ℚ) (c : Cache) (font t : String) : ℚ :=
  match cacheLookup c (measureKey font t) with
  | some v => v
  | none => backend font t

/-- Two caches that agree as measurement functions at a font. -/
def EqAt (backend : String → String → ℚ) (font : String) (c d : Cache) :
    Prop :=
  ∀ t, mval backend c font t = mval backend d font t

/-- The first test node of the repository's label-layout tests. -/
def nodeA : SankeyNode :=
  { id := "Node A", x0 := some 10, x1 := some 25, y0 := some 10, y1 := some 50 }

/-- The second test node of the repository's label-layout tests. -/
def nodeB : SankeyNode :=
  { id := "Node B", x0 := some 100, x1 := some 115, y0 := some 10, y1 := some 30 }

/-- Two nodes of equal height for the stability witness. -/
def nodeE1 : SankeyNode :=
  { id := "E1", x0 := some 10, x1 := some 25, y0 := some 10, y1 := some 30 }

def nodeE2 : SankeyNode :=
  { id := "E2", x0 := some 40, x1 := some 55, y0 := some 10, y1 := some 30 }

/-- A pre-existing label (as seeded through `existingLabels`). -/
def exLab : LabelLayout :=
  { text := "L", x := 300, y := 300, width := 40, height := 20
    anchorX := 320, anchorY := 310, hasLeaderLine := false
    nodeOrLinkId := "L", priority := 0 }

/-- The label the engine places for `nodeA` under `stdOpts` and the
8-pixels-per-character backend. -/
def labA : LabelLayout :=
  { text := "Node A", x := 31, y := 20, width := 56, height := 20
    anchorX := 35 / 2, anchorY := 30, hasLeaderLine := false
    nodeOrLinkId := "Node A", priority := 40 }

/-- `stdOpts` with detached labels disabled. -/
def noDetOpts : LabelLayoutOptions :=
  { minLabelHeight := 8, fontSize := 12, fontFamily := "sans-serif"
    padding := 4, leaderLineThreshold := 100, canvasWidth := 960
    canvasHeight := 600, enableHoverLabels := true
    enableDetachedLabels := false }

/-- A node on the narrow canvas whose label only fits detached. -/
def dNode : SankeyNode :=
  { id := "A", x0 := some 0, x1 := some 10, y0 := some 100, y1 := some 120 }

/-- The detached label the engine places for `dNode` under
`narrowDetOpts`: one ring step to the right of the anchor. -/
def dLab : LabelLayout :=
  { text := "A", x := 12, y := 100, width := 16, height := 20
    anchorX := 5, anchorY := 110, hasLeaderLine := true
    nodeOrLinkId := "A", priority := 20 }

/-! ### Lemmas and claim theorems -/

/-- Membership in `intRange` is the closed interval condition. -/
lemma mem_intRange {a b k : ℤ} : k ∈ intRange a b ↔ a ≤ k ∧ k ≤ b := by
  constructor
  · intro hk
    obtain ⟨i, hi, hk⟩ := List.mem_map.mp hk
    have hi2 := List.mem_range.mp hi
    omega
  · rintro ⟨h1, h2⟩
    exact List.mem_map.mpr ⟨(k - a).toNat, List.mem_range.mpr (by omega), by omega⟩

/-- `Rat.floor` is monotone. -/
lemma ratFloor_mono {p q : ℚ} (h : p ≤ q) : Rat.floor p ≤ Rat.floor q :=
  Rat.le_floor.mpr (le_trans (Rat.le_floor.mp le_rfl) h)

/-- Cell membership for `getCellsForBounds`, as interval conditions on the
floor of the scaled coordinates. -/
lemma mem_getCellsForBounds {s x y w h : ℚ} {c : ℤ × ℤ} :
    c ∈ getCellsForBounds s x y w h ↔
      (Rat.floor (x / s) ≤ c.1 ∧ c.1 ≤ Rat.floor ((x + w) / s)) ∧
      (Rat.floor (y / s) ≤ c.2 ∧ c.2 ≤ Rat.floor ((y + h) / s)) := by
  unfold getCellsForBounds
  simp only [List.mem_flatMap, List.mem_map]
  constructor
  · rintro ⟨a, ha, b, hb, rfl⟩
    exact ⟨mem_intRange.mp ha, mem_intRange.mp hb⟩
  · rintro ⟨hx, hy⟩
    exact ⟨c.1, mem_intRange.mpr hx, c.2, mem_intRange.mpr hy, rfl⟩

lemma rectOverlapB_iff {x y w h : ℚ} {l : LabelLayout} :
    rectOverlapB x y w h l = true ↔ overlapsRect x y w h l := by
  unfold rectOverlapB overlapsRect
  simp [and_assoc]

/-- Two strictly overlapping rectangles of nonnegative extent share a grid
cell: the cell of the pointwise maximum of the two corners. -/
lemma shared_cell {s x y w h lx ly lw lh : ℚ} (hs : 0 < s)
    (hw : 0 ≤ w) (hh : 0 ≤ h) (hlw : 0 ≤ lw) (hlh : 0 ≤ lh)
    (hov : x < lx + lw ∧ x + w > lx ∧ y < ly + lh ∧ y + h > ly) :
    ∃ c, c ∈ getCellsForBounds s x y w h ∧ c ∈ getCellsForBounds s lx ly lw lh := by
  obtain ⟨h1, h2, h3, h4⟩ := hov
  refine ⟨(Rat.floor (max x lx / s), Rat.floor (max y ly / s)), ?_, ?_⟩ <;>
    rw [mem_getCellsForBounds]
  · refine ⟨⟨?_, ?_⟩, ?_, ?_⟩
    · exact ratFloor_mono ((div_le_div_iff_of_pos_right hs).mpr (le_max_left x lx))
    · refine ratFloor_mono ((div_le_div_iff_of_pos_right hs).mpr ?_)
      rcases max_cases x lx with ⟨hm, _⟩ | ⟨hm, _⟩
      · rw [hm]; linarith
      · rw [hm]; linarith
    · exact ratFloor_mono ((div_le_div_iff_of_pos_right hs).mpr (le_max_left y ly))
    · refine ratFloor_mono ((div_le_div_iff_of_pos_right hs).mpr ?_)
      rcases max_cases y ly with ⟨hm, _⟩ | ⟨hm, _⟩
      · rw [hm]; linarith
      · rw [hm]; linarith
  · refine ⟨⟨?_, ?_⟩, ?_, ?_⟩
    · exact ratFloor_mono ((div_le_div_iff_of_pos_right hs).mpr (le_max_right x lx))
    · refine ratFloor_mono ((div_le_div_iff_of_pos_right hs).mpr ?_)
      rcases max_cases x lx with ⟨hm, _⟩ | ⟨hm, _⟩
      · rw [hm]; linarith
      · rw [hm]; linarith
    · exact ratFloor_mono ((div_le_div_iff_of_pos_right hs).mpr (le_max_right y ly))
    · refine ratFloor_mono ((div_le_div_iff_of_pos_right hs).mpr ?_)
      rcases max_cases y ly with ⟨hm, _⟩ | ⟨hm, _⟩
      · rw [hm]; linarith
      · rw [hm]; linarith

lemma memGrid_insert {g : SpatialGrid} {lab m : LabelLayout}
    (hm : memGrid (g.insert lab) m) : memGrid g m ∨ m = lab := by
  obtain ⟨c, hc⟩ := hm
  unfold SpatialGrid.insert at hc
  dsimp at hc
  by_cases hmem : c ∈ getCellsForBounds g.cellSize lab.x lab.y lab.width lab.height
  · rw [if_pos hmem, List.mem_append, List.mem_singleton] at hc
    rcases hc with hc | hc
    · exact Or.inl ⟨c, hc⟩
    · exact Or.inr hc
  · rw [if_neg hmem] at hc
    exact Or.inl ⟨c, hc⟩

lemma memGrid_insert_of_memGrid {g : SpatialGrid} {lab m : LabelLayout}
    (hm : memGrid g m) : memGrid (g.insert lab) m := by
  obtain ⟨c, hc⟩ := hm
  refine ⟨c, ?_⟩
  unfold SpatialGrid.insert
  dsimp
  split <;> simp [hc]

lemma registered_insert_of_registered {g : SpatialGrid} {lab m : LabelLayout}
    (hm : registered g m) : registered (g.insert lab) m := by
  intro c hc
  unfold SpatialGrid.insert at hc ⊢
  dsimp at hc ⊢
  have := hm c hc
  split <;> simp [this]

lemma registered_insert_self (g : SpatialGrid) (lab : LabelLayout) :
    registered (g.insert lab) lab := by
  intro c hc
  unfold SpatialGrid.insert at hc ⊢
  dsimp at hc ⊢
  rw [if_pos hc]
  simp

lemma gridInv_insert {g : SpatialGrid} {lab : LabelLayout} (hg : GridInv g)
    (hw : 0 ≤ lab.width) (hh : 0 ≤ lab.height) : GridInv (g.insert lab) := by
  obtain ⟨hcs, hreg⟩ := hg
  refine ⟨hcs, fun m hm => ?_⟩
  rcases memGrid_insert hm with hold | rfl
  · obtain ⟨hr, hwm, hhm⟩ := hreg m hold
    exact ⟨registered_insert_of_registered hr, hwm, hhm⟩
  · exact ⟨registered_insert_self g m, hw, hh⟩

/-- Soundness of a negative collision check: when the grid is well-formed
and the query rectangle has nonnegative extent, `checkCollision = false`
guarantees that the query overlaps no label in the grid. -/
lemma not_overlaps_of_checkCollision_false {g : SpatialGrid} {x y w h : ℚ}
    (hg : GridInv g) (hw : 0 ≤ w) (hh : 0 ≤ h)
    (hcc : g.checkCollision x y w h = false) :
    ∀ l, memGrid g l → ¬ overlapsRect x y w h l := by
  intro l hl hov
  obtain ⟨hcs, hreg⟩ := hg
  obtain ⟨hr, hlw, hlh⟩ := hreg l hl
  obtain ⟨h1, h2, h3, h4⟩ := hov
  obtain ⟨c, hcq, hcl⟩ :=
    shared_cell (s := g.cellSize) (by rw [hcs]; norm_num) hw hh hlw hlh
      ⟨h1, h2, h3, h4⟩
  have hmem : l ∈ g.grid c := hr c hcl
  unfold SpatialGrid.checkCollision at hcc
  rw [List.any_eq_false] at hcc
  have := hcc c hcq
  rw [List.any_eq_true] at this
  exact this ⟨l, hmem, rectOverlapB_iff.mpr ⟨h1, h2, h3, h4⟩⟩

lemma acceptPos_eq_true {o : LabelLayoutOptions} {g : SpatialGrid} {x y w h : ℚ} :
    acceptPos o g x y w h = true ↔
      (0 ≤ x ∧ x + w ≤ o.canvasWidth ∧ 0 ≤ y ∧ y + h ≤ o.canvasHeight) ∧
        g.checkCollision x y w h = false := by
  unfold acceptPos
  rw [Bool.and_eq_true, Bool.not_eq_true', Bool.not_eq_true']
  simp only [Bool.or_eq_false_iff, decide_eq_false_iff_not, not_lt]
  tauto

lemma cacheLookup_some_mem {c : Cache} {key : String} {v : ℚ}
    (h : cacheLookup c key = some v) : (key, v) ∈ c := by
  induction c with
  | nil => simp [cacheLookup] at h
  | cons kv rest ih =>
    obtain ⟨k, w⟩ := kv
    unfold cacheLookup at h
    split at h
    · cases h
      simp_all
    · exact List.mem_cons_of_mem _ (ih h)

lemma measureText_nonneg {backend : String → String → ℚ} {c : Cache}
    {text font : String} (hb : ∀ f t, 0 ≤ backend f t) (hc : CacheNonneg c) :
    0 ≤ (measureText backend c text font).1 ∧
      CacheNonneg (measureText backend c text font).2 := by
  unfold measureText
  cases h : cacheLookup c (measureKey font text) with
  | some v => exact ⟨hc _ (cacheLookup_some_mem h), hc⟩
  | none =>
    refine ⟨hb font text, fun kv hkv => ?_⟩
    rcases List.mem_cons.mp hkv with rfl | hkv
    · exact hb font text
    · exact hc kv hkv

lemma tryPlaceNodeLabel_some {backend : String → String → ℚ}
    {o : LabelLayoutOptions} {g : SpatialGrid} {c : Cache} {font : String}
    {node : SankeyNode} {lab : LabelLayout} {c' : Cache}
    (h : tryPlaceNodeLabel backend o g c font node = (some lab, c')) :
    ∃ x0 x1 y0 y1,
      node.x0 = some x0 ∧ node.x1 = some x1 ∧
      node.y0 = some y0 ∧ node.y1 = some y1 ∧
      lab.width = (measureText backend c node.id font).1 + o.padding * 2 ∧
      lab.height = o.fontSize + o.padding * 2 ∧
      lab.anchorX = (x0 + x1) / 2 ∧ lab.anchorY = (y0 + y1) / 2 ∧
      lab.hasLeaderLine = false ∧ lab.text = node.id ∧
      lab.nodeOrLinkId = node.id ∧ lab.priority = y1 - y0 ∧
      acceptPos o g lab.x lab.y lab.width lab.height = true ∧
      c' = (measureText backend c node.id font).2 := by
  obtain ⟨nid, nx0, nx1, ny0, ny1⟩ := node
  cases nx0 with
  | none => simp [tryPlaceNodeLabel] at h
  | some x0 =>
  cases nx1 with
  | none => simp [tryPlaceNodeLabel] at h
  | some x1 =>
  cases ny0 with
  | none => simp [tryPlaceNodeLabel] at h
  | some y0 =>
  cases ny1 with
  | none => simp [tryPlaceNodeLabel] at h
  | some y1 =>
  refine ⟨x0, x1, y0, y1, rfl, rfl, rfl, rfl, ?_⟩
  unfold tryPlaceNodeLabel at h
  dsimp at h
  set m := measureText backend c nid font with hm
  set lw := m.1 + o.padding * 2 with hlw
  set lh := o.fontSize + o.padding * 2 with hlh
  set positions := if decide (x0 < o.canvasWidth / 2) = true then
      [(x1 + 6, (y0 + y1) / 2 - lh / 2), (x0 - lw - 6, (y0 + y1) / 2 - lh / 2)]
    else
      [(x0 - lw - 6, (y0 + y1) / 2 - lh / 2), (x1 + 6, (y0 + y1) / 2 - lh / 2)]
    with hpos
  cases hf : positions.find? (fun pos => acceptPos o g pos.1 pos.2 lw lh) with
  | none =>
    rw [hf] at h
    simp at h
  | some pos =>
    rw [hf] at h
    obtain ⟨h1, h2⟩ := Prod.mk.injEq .. |>.mp h
    obtain rfl := Option.some.inj h1
    have hacc := List.find?_some hf
    exact ⟨rfl, rfl, rfl, rfl, rfl, rfl, rfl, rfl, hacc, h2.symm⟩

lemma tryDetachedPlacement_some {backend : String → String → ℚ}
    {dirs : List (ℚ × ℚ)} {o : LabelLayoutOptions} {g : SpatialGrid}
    {c : Cache} {font : String} {node : SankeyNode} {lab : LabelLayout}
    {c' : Cache}
    (h : tryDetachedPlacement backend dirs o g c font node = (some lab, c')) :
    ∃ x0 x1 y0 y1 d dir,
      node.x0 = some x0 ∧ node.x1 = some x1 ∧
      node.y0 = some y0 ∧ node.y1 = some y1 ∧
      d ∈ detachedDistances o.leaderLineThreshold ∧ dir ∈ dirs ∧
      lab.width = (measureText backend c node.id font).1 + o.padding * 2 ∧
      lab.height = o.fontSize + o.padding * 2 ∧
      lab.anchorX = (x0 + x1) / 2 ∧ lab.anchorY = (y0 + y1) / 2 ∧
      lab.x = (x0 + x1) / 2 + dir.1 * d - lab.width / 2 ∧
      lab.y = (y0 + y1) / 2 + dir.2 * d - lab.height / 2 ∧
      lab.hasLeaderLine = true ∧ lab.text = node.id ∧
      lab.nodeOrLinkId = node.id ∧ lab.priority = y1 - y0 ∧
      acceptPos o g lab.x lab.y lab.width lab.height = true ∧
      c' = (measureText backend c node.id font).2 := by
  obtain ⟨nid, nx0, nx1, ny0, ny1⟩ := node
  cases nx0 with
  | none => simp [tryDetachedPlacement] at h
  | some x0 =>
  cases nx1 with
  | none => simp [tryDetachedPlacement] at h
  | some x1 =>
  cases ny0 with
  | none => simp [tryDetachedPlacement] at h
  | some y0 =>
  cases ny1 with
  | none => simp [tryDetachedPlacement] at h
  | some y1 =>
  refine ⟨x0, x1, y0, y1, ?_⟩
  unfold tryDetachedPlacement at h
  dsimp at h
  set m := measureText backend c nid font with hm
  set lw := m.1 + o.padding * 2 with hlw
  set lh := o.fontSize + o.padding * 2 with hlh
  set candidates := (detachedDistances o.leaderLineThreshold).flatMap
      (fun distance => dirs.map (fun dir => (distance, dir))) with hcands
  cases hf : candidates.find? (fun cand =>
      acceptPos o g ((x0 + x1) / 2 + cand.2.1 * cand.1 - lw / 2)
        ((y0 + y1) / 2 + cand.2.2 * cand.1 - lh / 2) lw lh) with
  | none =>
    rw [hf] at h
    simp at h
  | some cand =>
    rw [hf] at h
    obtain ⟨h1, h2⟩ := Prod.mk.injEq .. |>.mp h
    obtain rfl := Option.some.inj h1
    have hacc := List.find?_some hf
    have hmem := List.mem_of_find?_eq_some hf
    rw [hcands, List.mem_flatMap] at hmem
    obtain ⟨d, hd, hdir⟩ := hmem
    rw [List.mem_map] at hdir
    obtain ⟨dir, hdirmem, rfl⟩ := hdir
    exact ⟨d, dir, rfl, rfl, rfl, rfl, hd, hdirmem, rfl, rfl, rfl, rfl, rfl,
      rfl, rfl, rfl, rfl, rfl, hacc, h2.symm⟩

lemma tryPlaceNodeLabel_cacheNonneg {backend : String → String → ℚ}
    {o : LabelLayoutOptions} {g : SpatialGrid} {c : Cache} {font : String}
    {node : SankeyNode} (hb : ∀ f t, 0 ≤ backend f t) (hc : CacheNonneg c) :
    CacheNonneg (tryPlaceNodeLabel backend o g c font node).2 := by
  obtain ⟨nid, nx0, nx1, ny0, ny1⟩ := node
  cases nx0 <;> cases nx1 <;> cases ny0 <;> cases ny1 <;>
    first
      | exact hc
      | · unfold tryPlaceNodeLabel
          dsimp
          split <;> exact (measureText_nonneg hb hc).2

lemma tryDetachedPlacement_cacheNonneg {backend : String → String → ℚ}
    {dirs : List (ℚ × ℚ)} {o : LabelLayoutOptions} {g : SpatialGrid}
    {c : Cache} {font : String} {node : SankeyNode}
    (hb : ∀ f t, 0 ≤ backend f t) (hc : CacheNonneg c) :
    CacheNonneg (tryDetachedPlacement backend dirs o g c font node).2 := by
  obtain ⟨nid, nx0, nx1, ny0, ny1⟩ := node
  cases nx0 <;> cases nx1 <;> cases ny0 <;> cases ny1 <;>
    first
      | exact hc
      | · unfold tryDetachedPlacement
          dsimp
          split <;> exact (measureText_nonneg hb hc).2

/-- Exhaustive shape analysis of one engine loop iteration: it either leaves
the three result components unchanged, appends an unplaced record for a node
with defined geometry, or appends (and registers in the grid) a label
accepted by the inline attempt or by the detached attempt. -/
lemma processNode_shape (backend : String → String → ℚ) (dirs : List (ℚ × ℚ))
    (opts : LabelLayoutOptions) (font : String) (st : RunState)
    (node : SankeyNode) :
    (∃ c', processNode backend dirs opts font st node =
        { grid := st.grid, placed := st.placed, unplaced := st.unplaced,
          cache := c' }) ∨
    (∃ x0 x1 y0 y1 w c', node.x0 = some x0 ∧ node.x1 = some x1 ∧
        node.y0 = some y0 ∧ node.y1 = some y1 ∧
        processNode backend dirs opts font st node =
          { grid := st.grid, placed := st.placed,
            unplaced := st.unplaced ++ [unplacedRecord opts w x0 x1 y0 y1 node.id],
            cache := c' }) ∨
    (∃ lab c', tryPlaceNodeLabel backend opts st.grid st.cache font node = (some lab, c') ∧
        processNode backend dirs opts font st node =
          { grid := st.grid.insert lab, placed := st.placed ++ [lab],
            unplaced := st.unplaced, cache := c' }) ∨
    (∃ lab c1 c', opts.enableDetachedLabels = true ∧
        tryPlaceNodeLabel backend opts st.grid st.cache font node = (none, c1) ∧
        tryDetachedPlacement backend dirs opts st.grid c1 font node = (some lab, c') ∧
        processNode backend dirs opts font st node =
          { grid := st.grid.insert lab, placed := st.placed ++ [lab],
            unplaced := st.unplaced, cache := c' }) := by
  obtain ⟨nid, nx0, nx1, ny0, ny1⟩ := node
  cases nx0 with
  | none => exact Or.inl ⟨st.cache, rfl⟩
  | some x0 =>
  cases nx1 with
  | none => exact Or.inl ⟨st.cache, rfl⟩
  | some x1 =>
  cases ny0 with
  | none => exact Or.inl ⟨st.cache, rfl⟩
  | some y0 =>
  cases ny1 with
  | none => exact Or.inl ⟨st.cache, rfl⟩
  | some y1 =>
  unfold processNode
  dsimp
  by_cases hsmall : y1 - y0 < opts.minLabelHeight
  · rw [if_pos hsmall]
    exact Or.inr (Or.inl ⟨x0, x1, y0, y1, _, _, rfl, rfl, rfl, rfl, rfl⟩)
  · rw [if_neg hsmall]
    cases htp : tryPlaceNodeLabel backend opts st.grid st.cache font
        ⟨nid, some x0, some x1, some y0, some y1⟩ with
    | mk olab c1 =>
    cases olab with
    | some lab =>
      exact Or.inr (Or.inr (Or.inl ⟨lab, c1, rfl, rfl⟩))
    | none =>
      dsimp only
      by_cases hdet : opts.enableDetachedLabels = true
      · rw [if_pos hdet]
        cases htd : tryDetachedPlacement backend dirs opts st.grid c1 font
            ⟨nid, some x0, some x1, some y0, some y1⟩ with
        | mk odet c2 =>
        cases odet with
        | some detachedLabel =>
          exact Or.inr (Or.inr (Or.inr ⟨detachedLabel, c1, c2, hdet, rfl, htd, rfl⟩))
        | none =>
          exact Or.inr (Or.inl ⟨x0, x1, y0, y1, _, _, rfl, rfl, rfl, rfl, rfl⟩)
      · rw [if_neg hdet]
        exact Or.inl ⟨c1, rfl⟩

lemma foldl_processNode_inv {backend : String → String → ℚ}
    {dirs : List (ℚ × ℚ)} {opts : LabelLayoutOptions} {font : String}
    {P : RunState → Prop} :
    ∀ (l : List SankeyNode),
      (∀ st node, node ∈ l →
        P st → P (processNode backend dirs opts font st node)) →
      ∀ st, P st → P (l.foldl (processNode backend dirs opts font) st)
  | [], _, _, h => h
  | n :: rest, hstep, st, h =>
    foldl_processNode_inv rest
      (fun st' node hn => hstep st' node (List.mem_cons_of_mem _ hn))
      (processNode backend dirs opts font st n)
      (hstep st n (List.mem_cons_self n rest) h)

lemma overlapsRect_symm {a b : LabelLayout} :
    overlapsRect a.x a.y a.width a.height b ↔
      overlapsRect b.x b.y b.width b.height a := by
  unfold overlapsRect
  constructor <;> rintro ⟨h1, h2, h3, h4⟩ <;>
    exact ⟨by linarith, by linarith, by linarith, by linarith⟩

lemma placed_inCanvas_step {backend : String → String → ℚ}
    {dirs : List (ℚ × ℚ)} {opts : LabelLayoutOptions} {font : String}
    (st : RunState) (node : SankeyNode)
    (hP : ∀ p ∈ st.placed, inCanvas opts p) :
    ∀ p ∈ (processNode backend dirs opts font st node).placed, inCanvas opts p := by
  rcases processNode_shape backend dirs opts font st node with
      ⟨c', heq⟩ | ⟨x0, x1, y0, y1, w, c', _, _, _, _, heq⟩ |
      ⟨lab, c', htp, heq⟩ | ⟨lab, c1, c', _, _, htd, heq⟩
  · rw [heq]; exact hP
  · rw [heq]; exact hP
  · rw [heq]
    intro p hp
    rcases List.mem_append.mp hp with hp | hp
    · exact hP p hp
    · obtain rfl := List.mem_singleton.mp hp
      obtain ⟨_, _, _, _, _, _, _, _, _, _, _, _, _, _, _, _, hacc, _⟩ :=
        tryPlaceNodeLabel_some htp
      obtain ⟨⟨b1, b2, b3, b4⟩, _⟩ := acceptPos_eq_true.mp hacc
      exact ⟨b1, b3, b2, b4⟩
  · rw [heq]
    intro p hp
    rcases List.mem_append.mp hp with hp | hp
    · exact hP p hp
    · obtain rfl := List.mem_singleton.mp hp
      obtain ⟨_, _, _, _, _, _, _, _, _, _, _, _, _, _, _, _, _, _, _, _, _, _,
        hacc, _⟩ := tryDetachedPlacement_some htd
      obtain ⟨⟨b1, b2, b3, b4⟩, _⟩ := acceptPos_eq_true.mp hacc
      exact ⟨b1, b3, b2, b4⟩

lemma placed_noLeader_step {backend : String → String → ℚ}
    {dirs : List (ℚ × ℚ)} {opts : LabelLayoutOptions} {font : String}
    (hdet : opts.enableDetachedLabels = false)
    (st : RunState) (node : SankeyNode)
    (hP : ∀ p ∈ st.placed, p.hasLeaderLine = false) :
    ∀ p ∈ (processNode backend dirs opts font st node).placed,
      p.hasLeaderLine = false := by
  rcases processNode_shape backend dirs opts font st node with
      ⟨c', heq⟩ | ⟨x0, x1, y0, y1, w, c', _, _, _, _, heq⟩ |
      ⟨lab, c', htp, heq⟩ | ⟨lab, c1, c', hdet', _, _, heq⟩
  · rw [heq]; exact hP
  · rw [heq]; exact hP
  · rw [heq]
    intro p hp
    rcases List.mem_append.mp hp with hp | hp
    · exact hP p hp
    · obtain rfl := List.mem_singleton.mp hp
      obtain ⟨_, _, _, _, _, _, _, _, _, _, _, _, hl, _, _, _, _, _⟩ :=
        tryPlaceNodeLabel_some htp
      exact hl
  · rw [hdet] at hdet'
    cases hdet'

lemma origin_step {backend : String → String → ℚ}
    {dirs : List (ℚ × ℚ)} {opts : LabelLayoutOptions} {font : String}
    {nodes : List SankeyNode}
    (st : RunState) (node : SankeyNode) (hmem : node ∈ nodes)
    (hP : ∀ lab, lab ∈ st.placed ∨ lab ∈ st.unplaced → originOk nodes lab) :
    ∀ lab, lab ∈ (processNode backend dirs opts font st node).placed ∨
        lab ∈ (processNode backend dirs opts font st node).unplaced →
      originOk nodes lab := by
  rcases processNode_shape backend dirs opts font st node with
      ⟨c', heq⟩ | ⟨x0, x1, y0, y1, w, c', hx0, hx1, hy0, hy1, heq⟩ |
      ⟨lab, c', htp, heq⟩ | ⟨lab, c1, c', _, _, htd, heq⟩
  · rw [heq]; exact hP
  · rw [heq]
    rintro lab (hl | hl)
    · exact hP lab (Or.inl hl)
    · rcases List.mem_append.mp hl with hl | hl
      · exact hP lab (Or.inr hl)
      · obtain rfl := List.mem_singleton.mp hl
        exact ⟨node, hmem, by rw [hx0]; rfl, by rw [hx1]; rfl,
          by rw [hy0]; rfl, by rw [hy1]; rfl, rfl, rfl⟩
  · rw [heq]
    rintro lab' (hl | hl)
    · rcases List.mem_append.mp hl with hl | hl
      · exact hP lab' (Or.inl hl)
      · obtain rfl := List.mem_singleton.mp hl
        obtain ⟨x0, x1, y0, y1, hx0, hx1, hy0, hy1, _, _, _, _, _, ht, hid,
          _, _, _⟩ := tryPlaceNodeLabel_some htp
        exact ⟨node, hmem, by rw [hx0]; rfl, by rw [hx1]; rfl,
          by rw [hy0]; rfl, by rw [hy1]; rfl, hid, ht⟩
    · exact hP lab' (Or.inr hl)
  · rw [heq]
    rintro lab' (hl | hl)
    · rcases List.mem_append.mp hl with hl | hl
      · exact hP lab' (Or.inl hl)
      · obtain rfl := List.mem_singleton.mp hl
        obtain ⟨x0, x1, y0, y1, _, _, hx0, hx1, hy0, hy1, _, _, _, _, _, _, _,
          _, _, ht, hid, _, _, _⟩ := tryDetachedPlacement_some htd
        exact ⟨node, hmem, by rw [hx0]; rfl, by rw [hx1]; rfl,
          by rw [hy0]; rfl, by rw [hy1]; rfl, hid, ht⟩
    · exact hP lab' (Or.inr hl)

lemma processNode_cacheNonneg {backend : String → String → ℚ}
    {dirs : List (ℚ × ℚ)} {opts : LabelLayoutOptions} {font : String}
    (hb : ∀ f t, 0 ≤ backend f t) (st : RunState) (node : SankeyNode)
    (hc : CacheNonneg st.cache) :
    CacheNonneg (processNode backend dirs opts font st node).cache := by
  obtain ⟨nid, nx0, nx1, ny0, ny1⟩ := node
  cases nx0 <;> cases nx1 <;> cases ny0 <;> cases ny1 <;> try exact hc
  rename_i x0 x1 y0 y1
  unfold processNode
  dsimp
  split
  · exact (measureText_nonneg hb hc).2
  · have h1 := @tryPlaceNodeLabel_cacheNonneg backend opts st.grid st.cache
      font ⟨nid, some x0, some x1, some y0, some y1⟩ hb hc
    cases htp : tryPlaceNodeLabel backend opts st.grid st.cache font
        ⟨nid, some x0, some x1, some y0, some y1⟩ with
    | mk olab c1 =>
    rw [htp] at h1
    cases olab with
    | some lab => exact h1
    | none =>
      dsimp only
      by_cases hdet : opts.enableDetachedLabels = true
      · rw [if_pos hdet]
        have h2 := @tryDetachedPlacement_cacheNonneg backend dirs opts st.grid
          c1 font ⟨nid, some x0, some x1, some y0, some y1⟩ hb h1
        cases htd : tryDetachedPlacement backend dirs opts st.grid c1 font
            ⟨nid, some x0, some x1, some y0, some y1⟩ with
        | mk odet c2 =>
        rw [htd] at h2
        cases odet with
        | some lab => exact h2
        | none => exact (measureText_nonneg hb h2).2
      · rw [if_neg hdet]
        exact h1

lemma memGrid_insert_self {g : SpatialGrid} {lab : LabelLayout}
    (hs : 0 < g.cellSize) (hw : 0 ≤ lab.width) (hh : 0 ≤ lab.height) :
    memGrid (g.insert lab) lab := by
  have hx : Rat.floor (lab.x / g.cellSize) ≤
      Rat.floor ((lab.x + lab.width) / g.cellSize) :=
    ratFloor_mono ((div_le_div_iff_of_pos_right hs).mpr (by linarith))
  have hy : Rat.floor (lab.y / g.cellSize) ≤
      Rat.floor ((lab.y + lab.height) / g.cellSize) :=
    ratFloor_mono ((div_le_div_iff_of_pos_right hs).mpr (by linarith))
  have hc : (Rat.floor (lab.x / g.cellSize), Rat.floor (lab.y / g.cellSize)) ∈
      getCellsForBounds g.cellSize lab.x lab.y lab.width lab.height :=
    mem_getCellsForBounds.mpr ⟨⟨le_refl _, hx⟩, le_refl _, hy⟩
  exact ⟨_, registered_insert_self g lab _ hc⟩

/-- Seeding a list of labels of nonnegative extent preserves grid
well-formedness, preserves membership, and registers every seeded label. -/
lemma foldl_insert_grid :
    ∀ (ls : List LabelLayout) (g : SpatialGrid), GridInv g →
      (∀ e ∈ ls, 0 ≤ e.width ∧ 0 ≤ e.height) →
      GridInv (ls.foldl SpatialGrid.insert g) ∧
      (∀ m, memGrid g m → memGrid (ls.foldl SpatialGrid.insert g) m) ∧
      (∀ e ∈ ls, memGrid (ls.foldl SpatialGrid.insert g) e) := by
  intro ls
  induction ls with
  | nil => exact fun g hg _ => ⟨hg, fun _ hm => hm, by simp⟩
  | cons e rest ih =>
    intro g hg he
    have hse : 0 < g.cellSize := by rw [hg.1]; norm_num
    have hew := he e (List.mem_cons_self e rest)
    have hg' : GridInv (g.insert e) := gridInv_insert hg hew.1 hew.2
    obtain ⟨ih1, ih2, ih3⟩ := ih (g.insert e) hg'
      (fun x hx => he x (List.mem_cons_of_mem _ hx))
    refine ⟨ih1, fun m hm => ih2 m (memGrid_insert_of_memGrid hm), ?_⟩
    rintro e' he'
    rcases List.mem_cons.mp he' with rfl | he'
    · exact ih2 e' (memGrid_insert_self hse hew.1 hew.2)
    · exact ih3 e' he'

lemma noOverlap_step {backend : String → String → ℚ} {dirs : List (ℚ × ℚ)}
    {opts : LabelLayoutOptions} {font : String} {existing : List LabelLayout}
    (hb : ∀ f t, 0 ≤ backend f t) (hpad : 0 ≤ opts.padding)
    (hfs : 0 ≤ opts.fontSize) (st : RunState) (node : SankeyNode)
    (hP : NoOverlapInv existing st) :
    NoOverlapInv existing (processNode backend dirs opts font st node) := by
  obtain ⟨hgrid, hcache, hpair, hpe, hpm, hem⟩ := hP
  have hcache' := @processNode_cacheNonneg backend dirs opts font hb st node
    hcache
  have hspos : 0 < st.grid.cellSize := by rw [hgrid.1]; norm_num
  rcases processNode_shape backend dirs opts font st node with
      ⟨c', heq⟩ | ⟨x0, x1, y0, y1, w, c', _, _, _, _, heq⟩ |
      ⟨lab, c', htp, heq⟩ | ⟨lab, c1, c', _, htp, htd, heq⟩
  · rw [heq] at hcache' ⊢
    exact ⟨hgrid, hcache', hpair, hpe, hpm, hem⟩
  · rw [heq] at hcache' ⊢
    exact ⟨hgrid, hcache', hpair, hpe, hpm, hem⟩
  · rw [heq] at hcache' ⊢
    obtain ⟨_, _, _, _, _, _, _, _, hw, hh, _, _, _, _, _, _, hacc, _⟩ :=
      tryPlaceNodeLabel_some htp
    have hwnn : 0 ≤ lab.width := by
      rw [hw]
      have := (@measureText_nonneg backend st.cache node.id font hb hcache).1
      linarith
    have hhnn : 0 ≤ lab.height := by rw [hh]; linarith
    have hcc := (acceptPos_eq_true.mp hacc).2
    have hnool : ∀ l, memGrid st.grid l →
        ¬ overlapsRect lab.x lab.y lab.width lab.height l :=
      not_overlaps_of_checkCollision_false hgrid hwnn hhnn hcc
    refine ⟨gridInv_insert hgrid hwnn hhnn, hcache', ?_, ?_, ?_, ?_⟩
    · rw [List.pairwise_append]
      refine ⟨hpair, List.pairwise_singleton _ _, ?_⟩
      intro a ha b hb'
      obtain rfl := List.mem_singleton.mp hb'
      exact fun hov => hnool a (hpm a ha) (overlapsRect_symm.mp hov)
    · intro p hp e he
      rcases List.mem_append.mp hp with hp | hp
      · exact hpe p hp e he
      · obtain rfl := List.mem_singleton.mp hp
        exact hnool e (hem e he)
    · intro p hp
      rcases List.mem_append.mp hp with hp | hp
      · exact memGrid_insert_of_memGrid (hpm p hp)
      · obtain rfl := List.mem_singleton.mp hp
        exact memGrid_insert_self hspos hwnn hhnn
    · exact fun e he => memGrid_insert_of_memGrid (hem e he)
  · rw [heq] at hcache' ⊢
    have hc1 : CacheNonneg c1 := by
      have := @tryPlaceNodeLabel_cacheNonneg backend opts st.grid st.cache
        font node hb hcache
      rw [htp] at this
      exact this
    obtain ⟨_, _, _, _, _, _, _, _, _, _, _, _, hw, hh, _, _, _, _, _, _,
      _, _, hacc, _⟩ := tryDetachedPlacement_some htd
    have hwnn : 0 ≤ lab.width := by
      rw [hw]
      have := (@measureText_nonneg backend c1 node.id font hb hc1).1
      linarith
    have hhnn : 0 ≤ lab.height := by rw [hh]; linarith
    have hcc := (acceptPos_eq_true.mp hacc).2
    have hnool : ∀ l, memGrid st.grid l →
        ¬ overlapsRect lab.x lab.y lab.width lab.height l :=
      not_overlaps_of_checkCollision_false hgrid hwnn hhnn hcc
    refine ⟨gridInv_insert hgrid hwnn hhnn, hcache', ?_, ?_, ?_, ?_⟩
    · rw [List.pairwise_append]
      refine ⟨hpair, List.pairwise_singleton _ _, ?_⟩
      intro a ha b hb'
      obtain rfl := List.mem_singleton.mp hb'
      exact fun hov => hnool a (hpm a ha) (overlapsRect_symm.mp hov)
    · intro p hp e he
      rcases List.mem_append.mp hp with hp | hp
      · exact hpe p hp e he
      · obtain rfl := List.mem_singleton.mp hp
        exact hnool e (hem e he)
    · intro p hp
      rcases List.mem_append.mp hp with hp | hp
      · exact memGrid_insert_of_memGrid (hpm p hp)
      · obtain rfl := List.mem_singleton.mp hp
        exact memGrid_insert_self hspos hwnn hhnn
    · exact fun e he => memGrid_insert_of_memGrid (hem e he)

/-- Any property preserved by the loop body and true of the freshly seeded
state holds of the engine result (`computeNodeLabelLayouts` is the fold of
`processNode` over the sorted nodes from the seeded state). -/
lemma compute_inv (backend : String → String → ℚ) (dirs : List (ℚ × ℚ))
    (opts : LabelLayoutOptions) (nodes : List SankeyNode)
    (existing : List LabelLayout) (c0 : Cache) {P : RunState → Prop}
    (hstep : ∀ st node, node ∈ sortedNodesByHeight nodes →
      P st → P (processNode backend dirs opts (fontOf opts) st node))
    (hinit : P (initState existing c0)) :
    P (computeNodeLabelLayouts backend dirs opts nodes existing c0) :=
  foldl_processNode_inv _ hstep _ hinit

lemma gridInv_empty : GridInv
    (SpatialGrid.clear { cellSize := 50, grid := fun _ => [] }) := by
  refine ⟨rfl, ?_⟩
  rintro l ⟨c, hc⟩
  simp [SpatialGrid.clear] at hc

lemma sortedNodes_mem {nodes : List SankeyNode} {n : SankeyNode}
    (h : n ∈ sortedNodesByHeight nodes) : n ∈ nodes :=
  (List.perm_insertionSort nodeOrder nodes).mem_iff.mp h

/-- Claim C2. In every result of `computeNodeLabelLayouts` (with a
nonnegative measurement backend and cache, nonnegative padding and font
size, and existing labels of nonnegative extent), the bounding boxes of any
two distinct placed labels are disjoint under the strict AABB test, and no
placed label overlaps any rectangle of `existingLabels`. -/
theorem placed_labels_never_overlap (backend : String → String → ℚ)
    (dirs : List (ℚ × ℚ)) (opts : LabelLayoutOptions)
    (nodes : List SankeyNode) (existing : List LabelLayout) (c0 : Cache)
    (hb : ∀ f t, 0 ≤ backend f t) (hpad : 0 ≤ opts.padding)
    (hfs : 0 ≤ opts.fontSize) (hc0 : CacheNonneg c0)
    (hex : ∀ e ∈ existing, 0 ≤ e.width ∧ 0 ≤ e.height) :
    (computeNodeLabelLayouts backend dirs opts nodes existing c0).placed.Pairwise
        labDisjoint ∧
      ∀ p ∈ (computeNodeLabelLayouts backend dirs opts nodes existing c0).placed,
        ∀ e ∈ existing, labDisjoint p e := by
  obtain ⟨hginv, _, hexm⟩ :=
    foldl_insert_grid existing
      (SpatialGrid.clear { cellSize := 50, grid := fun _ => [] })
      gridInv_empty hex
  have h := compute_inv backend dirs opts nodes existing c0
    (P := NoOverlapInv existing)
    (fun st node _ hP => noOverlap_step hb hpad hfs st node hP)
    ⟨hginv, hc0, List.Pairwise.nil, by simp [initState], by simp [initState],
      hexm⟩
  exact ⟨h.2.2.1, h.2.2.2.1⟩

/-- Claim C3. Every placed label lies fully within the canvas:
`0 ≤ x`, `0 ≤ y`, `x + width ≤ canvasWidth`, `y + height ≤ canvasHeight`,
for inline and detached placements alike. -/
theorem placed_labels_within_canvas (backend : String → String → ℚ)
    (dirs : List (ℚ × ℚ)) (opts : LabelLayoutOptions)
    (nodes : List SankeyNode) (existing : List LabelLayout) (c0 : Cache) :
    ∀ lab ∈ (computeNodeLabelLayouts backend dirs opts nodes existing c0).placed,
      0 ≤ lab.x ∧ 0 ≤ lab.y ∧ lab.x + lab.width ≤ opts.canvasWidth ∧
        lab.y + lab.height ≤ opts.canvasHeight := by
  have h := compute_inv backend dirs opts nodes existing c0
    (P := fun st => ∀ p ∈ st.placed, inCanvas opts p)
    (fun st node _ hP => placed_inCanvas_step st node hP)
    (by simp [initState])
  exact fun lab hl =>
    ⟨(h lab hl).1, (h lab hl).2.1, (h lab hl).2.2.1, (h lab hl).2.2.2⟩

/-- Claim C6. With `enableDetachedLabels = false`, no placed label carries a
leader line. -/
theorem no_leader_lines_when_detached_disabled (backend : String → String → ℚ)
    (dirs : List (ℚ × ℚ)) (opts : LabelLayoutOptions)
    (nodes : List SankeyNode) (existing : List LabelLayout) (c0 : Cache)
    (hdet : opts.enableDetachedLabels = false) :
    ∀ lab ∈ (computeNodeLabelLayouts backend dirs opts nodes existing c0).placed,
      lab.hasLeaderLine = false := by
  have h := compute_inv backend dirs opts nodes existing c0
    (P := fun st => ∀ p ∈ st.placed, p.hasLeaderLine = false)
    (fun st node _ hP => placed_noLeader_step hdet st node hP)
    (by simp [initState])
  exact h

/-- Claim C5, amended. Only nodes with an undefined coordinate are excluded
from the output: every label in either result list originates from an input
node whose four coordinates are all defined (reversed geometry is processed,
not skipped). -/
theorem output_labels_from_defined_nodes (backend : String → String → ℚ)
    (dirs : List (ℚ × ℚ)) (opts : LabelLayoutOptions)
    (nodes : List SankeyNode) (existing : List LabelLayout) (c0 : Cache) :
    ∀ lab,
      lab ∈ (computeNodeLabelLayouts backend dirs opts nodes existing c0).placed ∨
      lab ∈ (computeNodeLabelLayouts backend dirs opts nodes existing c0).unplaced →
      originOk nodes lab := by
  have h := compute_inv backend dirs opts nodes existing c0
    (P := fun st => ∀ lab, lab ∈ st.placed ∨ lab ∈ st.unplaced →
      originOk nodes lab)
    (fun st node hmem hP => origin_step st node (sortedNodes_mem hmem) hP)
    (by rintro lab (h | h) <;> simp [initState] at h)
  exact h

/-- Claim C1, evaluation at the failing input: one node with fully defined
geometry (height 100, above the minimum 8), a 30-wide canvas rejecting both
inline positions, detached placement disabled — the engine returns two empty
lists, so `placed.length + unplaced.length = 0` while the input has one node
with defined geometry. -/
theorem completeness_fails_detached_disabled :
    (computeNodeLabelLayouts pxBackend axisDirs narrowOpts [tallNode] [] []).placed = [] ∧
    (computeNodeLabelLayouts pxBackend axisDirs narrowOpts [tallNode] [] []).unplaced = [] ∧
    (tallNode.x0.isSome ∧ tallNode.x1.isSome ∧ tallNode.y0.isSome ∧
      tallNode.y1.isSome) := by
  with_unfolding_all decide

/-- Claim C4, counterexample: a `SpatialGrid` with cell size `0` and a
`LabelLayoutManager` with a zero-width, negative-height canvas are both
constructed successfully — nothing is rejected at construction. -/
theorem construct_accepts_invalid_config :
    SpatialGrid.construct 0 = Except.ok { cellSize := 0, grid := fun _ => [] } ∧
    LabelLayoutManager.construct badOpts = Except.ok
      { spatialGrid := { cellSize := 50, grid := fun _ => [] }
        cache := [], options := badOpts } :=
  ⟨rfl, rfl⟩

/-- Claim C4, amended: the constructors perform no validation at all — for
every cell size (including zero and negative ones) and every configuration
(including non-positive canvas dimensions) construction succeeds. -/
theorem construct_never_fails :
    (∀ s : ℚ, ∃ g, SpatialGrid.construct s = Except.ok g) ∧
    (∀ o : LabelLayoutOptions, ∃ m, LabelLayoutManager.construct o = Except.ok m) :=
  ⟨fun _ => ⟨_, rfl⟩, fun _ => ⟨_, rfl⟩⟩

/-- Claim C5, counterexample: a node with `y1 < y0` (reversed geometry) is
not treated as missing geometry — its negative height falls below
`minLabelHeight` and the engine pushes it to `unplaced`, so it does appear
in an output list. -/
theorem reversed_geometry_not_skipped :
    ((computeNodeLabelLayouts pxBackend axisDirs stdOpts [revNode] [] []).unplaced.map
      (fun l => l.nodeOrLinkId)) = ["R"] := by
  with_unfolding_all decide

/-- Claim C8. The attempt order of `computeNodeLabelLayouts` is
`sortedNodesByHeight`: a permutation of the input, pairwise descending in
node height, and stable — whenever `a` precedes `b` in the input with
`heightOf b ≤ heightOf a` (in particular on ties), `a` still precedes `b`
in the attempt order. -/
theorem sort_desc_by_height_stable (nodes : List SankeyNode) :
    (sortedNodesByHeight nodes).Perm nodes ∧
    (sortedNodesByHeight nodes).Pairwise (fun a b => heightOf b ≤ heightOf a) ∧
    ∀ a b, heightOf b ≤ heightOf a → [a, b].Sublist nodes →
      [a, b].Sublist (sortedNodesByHeight nodes) := by
  refine ⟨List.perm_insertionSort nodeOrder nodes, ?_, ?_⟩
  · exact List.sorted_insertionSort nodeOrder nodes
  · intro a b hab hsub
    exact List.pair_sublist_insertionSort hab hsub

lemma mem_detachedDistances {m d : ℚ} (h : d ∈ detachedDistances m) :
    ∃ k : ℕ, 1 ≤ k ∧ d = 15 * k ∧ (15 * k : ℚ) ≤ m := by
  unfold detachedDistances at h
  obtain ⟨i, hi, rfl⟩ := List.mem_map.mp h
  have hi2 := List.mem_range.mp hi
  refine ⟨i + 1, by omega, by push_cast; ring, ?_⟩
  have h1 : (i : ℤ) + 1 ≤ Rat.floor (m / 15) := by omega
  have h2 : ((Rat.floor (m / 15) : ℤ) : ℚ) ≤ m / 15 := Rat.le_floor.mp le_rfl
  have h3 : ((i : ℚ) + 1) ≤ m / 15 := by
    calc ((i : ℚ) + 1) = (((i : ℤ) + 1 : ℤ) : ℚ) := by push_cast; ring
    _ ≤ ((Rat.floor (m / 15) : ℤ) : ℚ) := by exact_mod_cast h1
    _ ≤ m / 15 := h2
  have h4 : 15 * ((i : ℚ) + 1) ≤ 15 * (m / 15) := by linarith
  have h5 : 15 * (m / 15) = m := by ring
  push_cast
  linarith

lemma ring_step {backend : String → String → ℚ} {dirs : List (ℚ × ℚ)}
    {opts : LabelLayoutOptions} {font : String}
    (hdirs : ∀ v ∈ dirs, v.1 ^ 2 + v.2 ^ 2 = 1)
    (st : RunState) (node : SankeyNode)
    (hP : ∀ p ∈ st.placed, p.hasLeaderLine = true → RingProp opts p) :
    ∀ p ∈ (processNode backend dirs opts font st node).placed,
      p.hasLeaderLine = true → RingProp opts p := by
  rcases processNode_shape backend dirs opts font st node with
      ⟨c', heq⟩ | ⟨x0, x1, y0, y1, w, c', _, _, _, _, heq⟩ |
      ⟨lab, c', htp, heq⟩ | ⟨lab, c1, c', _, _, htd, heq⟩
  · rw [heq]; exact hP
  · rw [heq]; exact hP
  · rw [heq]
    intro p hp hleader
    rcases List.mem_append.mp hp with hp | hp
    · exact hP p hp hleader
    · obtain rfl := List.mem_singleton.mp hp
      obtain ⟨_, _, _, _, _, _, _, _, _, _, _, _, hl, _, _, _, _, _⟩ :=
        tryPlaceNodeLabel_some htp
      rw [hl] at hleader
      cases hleader
  · rw [heq]
    intro p hp hlead
    rcases List.mem_append.mp hp with hp | hp
    · exact hP p hp hlead
    · obtain rfl := List.mem_singleton.mp hp
      obtain ⟨x0, x1, y0, y1, d, dir, _, _, _, _, hd, hdir, _, _, haX, haY,
        hx, hy, _, _, _, _, _, _⟩ := tryDetachedPlacement_some htd
      obtain ⟨k, hk1, hk2, hk3⟩ := mem_detachedDistances hd
      refine ⟨k, hk1, ?_, hk3⟩
      have hcx : (p.x + p.width / 2) - p.anchorX = dir.1 * d := by
        rw [hx, haX]; ring
      have hcy : (p.y + p.height / 2) - p.anchorY = dir.2 * d := by
        rw [hy, haY]; ring
      rw [hcx, hcy, hk2]
      have hunit := hdirs dir hdir
      calc (dir.1 * (15 * (k : ℚ))) ^ 2 + (dir.2 * (15 * (k : ℚ))) ^ 2
          = (dir.1 ^ 2 + dir.2 ^ 2) * (15 * (k : ℚ)) ^ 2 := by ring
        _ = (15 * (k : ℚ)) ^ 2 := by rw [hunit]; ring

/-- Claim C10. Every placed label with a leader line sits on one of the
15-unit rings of the detached spiral around its anchor: the squared distance
from the anchor to the bounding-box center equals `(15 k)^2` for some
`k ≥ 1` with `15 k` at most `leaderLineThreshold` (for genuine direction
vectors, i.e. unit vectors). -/
theorem detached_labels_on_rings (backend : String → String → ℚ)
    (dirs : List (ℚ × ℚ)) (opts : LabelLayoutOptions)
    (nodes : List SankeyNode) (existing : List LabelLayout) (c0 : Cache)
    (hdirs : ∀ v ∈ dirs, v.1 ^ 2 + v.2 ^ 2 = 1) :
    ∀ lab ∈ (computeNodeLabelLayouts backend dirs opts nodes existing c0).placed,
      lab.hasLeaderLine = true →
      ∃ k : ℕ, 1 ≤ k ∧
        ((lab.x + lab.width / 2) - lab.anchorX) ^ 2 +
          ((lab.y + lab.height / 2) - lab.anchorY) ^ 2 = ((15 * k : ℚ)) ^ 2 ∧
        ((15 * k : ℚ)) ≤ opts.leaderLineThreshold := by
  have h := compute_inv backend dirs opts nodes existing c0
    (P := fun st => ∀ p ∈ st.placed, p.hasLeaderLine = true → RingProp opts p)
    (fun st node _ hP => ring_step hdirs st node hP)
    (by simp [initState])
  exact h

lemma colon_split_inj :
    ∀ (a : List Char) {b t u : List Char}, ':' ∉ a → ':' ∉ b →
      a ++ ':' :: t = b ++ ':' :: u → a = b ∧ t = u
  | [], b, t, u, _, hb, h => by
    cases b with
    | nil => simpa using h
    | cons c bs =>
      rw [List.nil_append, List.cons_append, List.cons.injEq] at h
      exact absurd (h.1 ▸ List.mem_cons_self c bs) (h.1 ▸ hb)
  | a :: as, b, t, u, ha, hb, h => by
    cases b with
    | nil =>
      rw [List.nil_append, List.cons_append, List.cons.injEq] at h
      exact absurd (h.1 ▸ List.mem_cons_self a as) (fun hmem => ha (h.1 ▸ hmem))
    | cons c bs =>
      rw [List.cons_append, List.cons_append, List.cons.injEq] at h
      obtain ⟨rfl, h2⟩ := h
      obtain ⟨rfl, rfl⟩ := colon_split_inj as
        (fun hm => ha (List.mem_cons_of_mem _ hm))
        (fun hm => hb (List.mem_cons_of_mem _ hm)) h2
      exact ⟨rfl, rfl⟩

lemma measureKey_data (f t : String) :
    (measureKey f t).data = f.data ++ ':' :: t.data := by
  unfold measureKey
  rw [String.data_append, String.data_append, List.append_assoc]
  rfl

/-- Key decomposition is unique for colon-free fonts. -/
lemma measureKey_inj {f g t u : String} (hf : ColonFree f) (hg : ColonFree g)
    (h : measureKey f t = measureKey g u) : f = g ∧ t = u := by
  have hd := congrArg String.data h
  rw [measureKey_data, measureKey_data] at hd
  obtain ⟨h1, h2⟩ := colon_split_inj f.data hf hg hd
  exact ⟨String.ext h1, String.ext h2⟩

/-- For a fixed font the key determines the text (no colon-freeness
needed: the font prefix cancels on the left). -/
lemma measureKey_left_inj {f t u : String}
    (h : measureKey f t = measureKey f u) : t = u := by
  have hd := congrArg String.data h
  rw [measureKey_data, measureKey_data] at hd
  have h2 := List.append_cancel_left hd
  exact String.ext (List.cons.injEq .. ▸ h2).2

/-- Claim C7, counterexample: the cache key is the bare concatenation
`font + ":" + text`, so the pairs `("a:b", "c")` and `("a", "b:c")` collide
on the key `"a:b:c"`. After measuring text `"c"` under font `"a:b"`
(width 1), measuring text `"b:c"` under font `"a"` returns the cached value
`1` instead of the backend's width `3` for that pair — the cache does change
the returned value. -/
theorem cache_conflates_colliding_keys :
    (measureText lenBackend (measureText lenBackend [] "c" "a:b").2
        "b:c" "a").1 ≠ lenBackend "a" "b:c" := by
  with_unfolding_all decide

/-- Claim C7, amended. The cache is keyed on the string `font + ":" + text`,
so two distinct (font, text) pairs whose concatenations coincide (possible
only when a font string contains a colon) are conflated. As long as fonts
are colon-free, the cache is faithful: `measureText` returns exactly the
backend's width for the pair, and faithfulness is preserved across calls. -/
theorem measureText_faithful_when_fonts_colon_free
    (backend : String → String → ℚ) (c : Cache) (text font : String)
    (hf : ColonFree font) (hc : CacheFaithful backend c) :
    (measureText backend c text font).1 = backend font text ∧
      CacheFaithful backend (measureText backend c text font).2 := by
  unfold measureText
  cases h : cacheLookup c (measureKey font text) with
  | some v => exact ⟨hc font text v hf h, hc⟩
  | none =>
    dsimp
    refine ⟨rfl, ?_⟩
    intro f t v hfc hl
    unfold cacheLookup at hl
    by_cases hk : measureKey font text = measureKey f t
    · rw [if_pos hk] at hl
      obtain ⟨rfl, rfl⟩ := measureKey_inj hf hfc hk
      cases hl
      rfl
    · rw [if_neg hk] at hl
      exact hc f t v hfc hl

lemma measureText_fst (backend : String → String → ℚ) (c : Cache)
    (t font : String) :
    (measureText backend c t font).1 = mval backend c font t := by
  unfold measureText mval
  cases cacheLookup c (measureKey font t) <;> rfl

/-- Measuring any text never changes the value any later lookup under the
same font will return. -/
lemma mval_measureText (backend : String → String → ℚ) (c : Cache)
    (font t u : String) :
    mval backend (measureText backend c u font).2 font t =
      mval backend c font t := by
  unfold measureText
  cases h : cacheLookup c (measureKey font u) with
  | some v => rfl
  | none =>
    dsimp
    by_cases hk : measureKey font u = measureKey font t
    · obtain rfl := measureKey_left_inj hk
      simp [mval, cacheLookup, h]
    · simp [mval, cacheLookup, hk]

lemma eqAt_rfl {backend : String → String → ℚ} {font : String} {c : Cache} :
    EqAt backend font c c := fun _ => rfl

lemma eqAt_symm {backend : String → String → ℚ} {font : String}
    {c d : Cache} (h : EqAt backend font c d) : EqAt backend font d c :=
  fun t => (h t).symm

lemma eqAt_trans {backend : String → String → ℚ} {font : String}
    {c d e : Cache} (h1 : EqAt backend font c d) (h2 : EqAt backend font d e) :
    EqAt backend font c e :=
  fun t => (h1 t).trans (h2 t)

lemma measureText_eqAt (backend : String → String → ℚ) (c : Cache)
    (t font : String) :
    EqAt backend font c (measureText backend c t font).2 :=
  fun u => (mval_measureText backend c font u t).symm

lemma eqAt_measure {backend : String → String → ℚ} {font : String}
    {c d : Cache} (h : EqAt backend font c d) (t : String) :
    (measureText backend c t font).1 = (measureText backend d t font).1 ∧
      EqAt backend font (measureText backend c t font).2
        (measureText backend d t font).2 :=
  ⟨by rw [measureText_fst, measureText_fst]; exact h t,
   fun u => by rw [mval_measureText, mval_measureText]; exact h u⟩

lemma tryPlace_eqAt (backend : String → String → ℚ)
    (o : LabelLayoutOptions) (g : SpatialGrid) (c : Cache) (font : String)
    (node : SankeyNode) :
    EqAt backend font c (tryPlaceNodeLabel backend o g c font node).2 := by
  obtain ⟨nid, nx0, nx1, ny0, ny1⟩ := node
  cases nx0 <;> cases nx1 <;> cases ny0 <;> cases ny1 <;>
    first
      | exact eqAt_rfl
      | · unfold tryPlaceNodeLabel
          dsimp
          split <;> exact measureText_eqAt backend c nid font

lemma tryDetached_eqAt (backend : String → String → ℚ)
    (dirs : List (ℚ × ℚ)) (o : LabelLayoutOptions) (g : SpatialGrid)
    (c : Cache) (font : String) (node : SankeyNode) :
    EqAt backend font c
      (tryDetachedPlacement backend dirs o g c font node).2 := by
  obtain ⟨nid, nx0, nx1, ny0, ny1⟩ := node
  cases nx0 <;> cases nx1 <;> cases ny0 <;> cases ny1 <;>
    first
      | exact eqAt_rfl
      | · unfold tryDetachedPlacement
          dsimp
          split <;> exact measureText_eqAt backend c nid font

lemma processNode_eqAt (backend : String → String → ℚ)
    (dirs : List (ℚ × ℚ)) (opts : LabelLayoutOptions) (font : String)
    (st : RunState) (node : SankeyNode) :
    EqAt backend font st.cache
      (processNode backend dirs opts font st node).cache := by
  obtain ⟨nid, nx0, nx1, ny0, ny1⟩ := node
  cases nx0 <;> cases nx1 <;> cases ny0 <;> cases ny1 <;> try exact eqAt_rfl
  rename_i x0 x1 y0 y1
  unfold processNode
  dsimp
  split
  · exact measureText_eqAt backend st.cache nid font
  · have h1 := tryPlace_eqAt backend opts st.grid st.cache font
      ⟨nid, some x0, some x1, some y0, some y1⟩
    cases htp : tryPlaceNodeLabel backend opts st.grid st.cache font
        ⟨nid, some x0, some x1, some y0, some y1⟩ with
    | mk olab c1 =>
    rw [htp] at h1
    cases olab with
    | some lab => exact h1
    | none =>
      dsimp only
      by_cases hdet : opts.enableDetachedLabels = true
      · rw [if_pos hdet]
        have h2 := tryDetached_eqAt backend dirs opts st.grid c1 font
          ⟨nid, some x0, some x1, some y0, some y1⟩
        cases htd : tryDetachedPlacement backend dirs opts st.grid c1 font
            ⟨nid, some x0, some x1, some y0, some y1⟩ with
        | mk odet c2 =>
        rw [htd] at h2
        cases odet with
        | some lab => exact eqAt_trans h1 h2
        | none =>
          exact eqAt_trans h1
            (eqAt_trans h2 (measureText_eqAt backend c2 nid font))
      · rw [if_neg hdet]
        exact h1

lemma tryPlace_congr (backend : String → String → ℚ)
    (o : LabelLayoutOptions) (g : SpatialGrid) (font : String)
    (node : SankeyNode) {c d : Cache} (h : EqAt backend font c d) :
    (tryPlaceNodeLabel backend o g c font node).1 =
      (tryPlaceNodeLabel backend o g d font node).1 ∧
    EqAt backend font (tryPlaceNodeLabel backend o g c font node).2
      (tryPlaceNodeLabel backend o g d font node).2 := by
  obtain ⟨nid, nx0, nx1, ny0, ny1⟩ := node
  cases nx0 <;> cases nx1 <;> cases ny0 <;> cases ny1 <;> try exact ⟨rfl, h⟩
  rename_i x0 x1 y0 y1
  obtain ⟨hv, h2⟩ := eqAt_measure h nid
  unfold tryPlaceNodeLabel
  dsimp
  rw [hv]
  cases List.find? (fun pos => acceptPos o g pos.1 pos.2
      ((measureText backend d nid font).1 + o.padding * 2)
      (o.fontSize + o.padding * 2))
    (if decide (x0 < o.canvasWidth / 2) = true then
      [(x1 + 6, (y0 + y1) / 2 - (o.fontSize + o.padding * 2) / 2),
       (x0 - ((measureText backend d nid font).1 + o.padding * 2) - 6,
        (y0 + y1) / 2 - (o.fontSize + o.padding * 2) / 2)]
    else
      [(x0 - ((measureText backend d nid font).1 + o.padding * 2) - 6,
        (y0 + y1) / 2 - (o.fontSize + o.padding * 2) / 2),
       (x1 + 6, (y0 + y1) / 2 - (o.fontSize + o.padding * 2) / 2)]) <;>
    exact ⟨rfl, h2⟩

lemma tryDetached_congr (backend : String → String → ℚ)
    (dirs : List (ℚ × ℚ)) (o : LabelLayoutOptions) (g : SpatialGrid)
    (font : String) (node : SankeyNode) {c d : Cache}
    (h : EqAt backend font c d) :
    (tryDetachedPlacement backend dirs o g c font node).1 =
      (tryDetachedPlacement backend dirs o g d font node).1 ∧
    EqAt backend font (tryDetachedPlacement backend dirs o g c font node).2
      (tryDetachedPlacement backend dirs o g d font node).2 := by
  obtain ⟨nid, nx0, nx1, ny0, ny1⟩ := node
  cases nx0 <;> cases nx1 <;> cases ny0 <;> cases ny1 <;> try exact ⟨rfl, h⟩
  rename_i x0 x1 y0 y1
  obtain ⟨hv, h2⟩ := eqAt_measure h nid
  unfold tryDetachedPlacement
  dsimp
  rw [hv]
  cases List.find? _ _ <;> exact ⟨rfl, h2⟩

/-- The loop body sends states that agree on grid, placed and unplaced and
whose caches agree as measurement functions to states that again so agree:
the cache state can only influence the result through measured widths. -/
lemma processNode_congr (backend : String → String → ℚ)
    (dirs : List (ℚ × ℚ)) (opts : LabelLayoutOptions) (font : String)
    (s1 s2 : RunState) (node : SankeyNode)
    (hg : s1.grid = s2.grid) (hp : s1.placed = s2.placed)
    (hu : s1.unplaced = s2.unplaced)
    (hc : EqAt backend font s1.cache s2.cache) :
    (processNode backend dirs opts font s1 node).grid =
      (processNode backend dirs opts font s2 node).grid ∧
    (processNode backend dirs opts font s1 node).placed =
      (processNode backend dirs opts font s2 node).placed ∧
    (processNode backend dirs opts font s1 node).unplaced =
      (processNode backend dirs opts font s2 node).unplaced ∧
    EqAt backend font (processNode backend dirs opts font s1 node).cache
      (processNode backend dirs opts font s2 node).cache := by
  obtain ⟨nid, nx0, nx1, ny0, ny1⟩ := node
  cases nx0 <;> cases nx1 <;> cases ny0 <;> cases ny1 <;>
    try exact ⟨hg, hp, hu, hc⟩
  rename_i x0 x1 y0 y1
  unfold processNode
  dsimp
  by_cases hsmall : y1 - y0 < opts.minLabelHeight
  · rw [if_pos hsmall, if_pos hsmall]
    obtain ⟨hv, h2⟩ := eqAt_measure hc nid
    refine ⟨hg, hp, ?_, h2⟩
    rw [hu, hv]
  · rw [if_neg hsmall, if_neg hsmall, ← hg]
    obtain ⟨ho, hcc⟩ := tryPlace_congr backend opts s1.grid font
      ⟨nid, some x0, some x1, some y0, some y1⟩ hc
    cases h1 : tryPlaceNodeLabel backend opts s1.grid s1.cache font
        ⟨nid, some x0, some x1, some y0, some y1⟩ with
    | mk olab1 c1 =>
    cases h2 : tryPlaceNodeLabel backend opts s1.grid s2.cache font
        ⟨nid, some x0, some x1, some y0, some y1⟩ with
    | mk olab2 c1' =>
    rw [h1, h2] at ho hcc
    dsimp at ho hcc
    obtain rfl := ho
    cases olab1 with
    | some lab => exact ⟨rfl, by rw [hp], hu, hcc⟩
    | none =>
      dsimp only
      by_cases hdet : opts.enableDetachedLabels = true
      · rw [if_pos hdet, if_pos hdet]
        obtain ⟨ho2, hcc2⟩ := tryDetached_congr backend dirs opts s1.grid font
          ⟨nid, some x0, some x1, some y0, some y1⟩ hcc
        cases h3 : tryDetachedPlacement backend dirs opts s1.grid c1 font
            ⟨nid, some x0, some x1, some y0, some y1⟩ with
        | mk odet1 c2 =>
        cases h4 : tryDetachedPlacement backend dirs opts s1.grid c1' font
            ⟨nid, some x0, some x1, some y0, some y1⟩ with
        | mk odet2 c2' =>
        rw [h3, h4] at ho2 hcc2
        dsimp at ho2 hcc2
        obtain rfl := ho2
        cases odet1 with
        | some lab => exact ⟨rfl, by rw [hp], hu, hcc2⟩
        | none =>
          obtain ⟨hv2, h5⟩ := eqAt_measure hcc2 nid
          dsimp only
          refine ⟨rfl, hp, ?_, h5⟩
          rw [hu, hv2]
      · rw [if_neg hdet, if_neg hdet]
        exact ⟨rfl, hp, hu, hcc⟩

lemma foldl_congr (backend : String → String → ℚ) (dirs : List (ℚ × ℚ))
    (opts : LabelLayoutOptions) (font : String) :
    ∀ (l : List SankeyNode) (s1 s2 : RunState),
      s1.grid = s2.grid → s1.placed = s2.placed →
      s1.unplaced = s2.unplaced → EqAt backend font s1.cache s2.cache →
      (l.foldl (processNode backend dirs opts font) s1).grid =
        (l.foldl (processNode backend dirs opts font) s2).grid ∧
      (l.foldl (processNode backend dirs opts font) s1).placed =
        (l.foldl (processNode backend dirs opts font) s2).placed ∧
      (l.foldl (processNode backend dirs opts font) s1).unplaced =
        (l.foldl (processNode backend dirs opts font) s2).unplaced ∧
      EqAt backend font
        (l.foldl (processNode backend dirs opts font) s1).cache
        (l.foldl (processNode backend dirs opts font) s2).cache
  | [], s1, s2, hg, hp, hu, hc => ⟨hg, hp, hu, hc⟩
  | n :: rest, s1, s2, hg, hp, hu, hc => by
    obtain ⟨hg', hp', hu', hc'⟩ :=
      processNode_congr backend dirs opts font s1 s2 n hg hp hu hc
    exact foldl_congr backend dirs opts font rest _ _ hg' hp' hu' hc'

lemma foldl_eqAt (backend : String → String → ℚ) (dirs : List (ℚ × ℚ))
    (opts : LabelLayoutOptions) (font : String) :
    ∀ (l : List SankeyNode) (st : RunState),
      EqAt backend font st.cache
        ((l.foldl (processNode backend dirs opts font) st).cache)
  | [], _ => eqAt_rfl
  | n :: rest, st =>
    eqAt_trans (processNode_eqAt backend dirs opts font st n)
      (foldl_eqAt backend dirs opts font rest
        (processNode backend dirs opts font st n))

/-- Claim C9. Running `computeNodeLabelLayouts` twice with identical nodes
and existing labels — the spatial grid being reset at the start of each call,
and the second call starting from the cache state the first call left behind
— produces identical placed and unplaced lists (same values, same order). -/
theorem compute_idempotent (backend : String → String → ℚ)
    (dirs : List (ℚ × ℚ)) (opts : LabelLayoutOptions)
    (nodes : List SankeyNode) (existing : List LabelLayout) (c0 : Cache) :
    (computeNodeLabelLayouts backend dirs opts nodes existing
        (computeNodeLabelLayouts backend dirs opts nodes existing c0).cache).placed =
      (computeNodeLabelLayouts backend dirs opts nodes existing c0).placed ∧
    (computeNodeLabelLayouts backend dirs opts nodes existing
        (computeNodeLabelLayouts backend dirs opts nodes existing c0).cache).unplaced =
      (computeNodeLabelLayouts backend dirs opts nodes existing c0).unplaced := by
  have hEq : EqAt backend (fontOf opts) c0
      (computeNodeLabelLayouts backend dirs opts nodes existing c0).cache :=
    foldl_eqAt backend dirs opts (fontOf opts) (sortedNodesByHeight nodes)
      (initState existing c0)
  have h := foldl_congr backend dirs opts (fontOf opts)
    (sortedNodesByHeight nodes)
    (initState existing
      (computeNodeLabelLayouts backend dirs opts nodes existing c0).cache)
    (initState existing c0) rfl rfl rfl (eqAt_symm hEq)
  exact ⟨h.2.1, h.2.2.1⟩

/-- Witness for claim C2 at a concrete input: two nodes, one existing label,
all hypotheses discharged. -/
theorem placed_labels_never_overlap_witness :
    (computeNodeLabelLayouts pxBackend axisDirs stdOpts [nodeA, nodeB]
        [exLab] []).placed.Pairwise labDisjoint ∧
      ∀ p ∈ (computeNodeLabelLayouts pxBackend axisDirs stdOpts [nodeA, nodeB]
          [exLab] []).placed,
        ∀ e ∈ [exLab], labDisjoint p e :=
  placed_labels_never_overlap pxBackend axisDirs stdOpts [nodeA, nodeB]
    [exLab] []
    (fun _ _ => mul_nonneg (by norm_num) (Nat.cast_nonneg _))
    (by norm_num [stdOpts])
    (by norm_num [stdOpts])
    (fun kv h => absurd h (List.not_mem_nil kv))
    (by intro e he
        rw [List.mem_singleton] at he
        subst he
        constructor <;> norm_num [exLab])

/-- Witness for claim C3 at a concrete input: the label placed for `nodeA`
satisfies all four bounds. -/
theorem placed_labels_within_canvas_witness :
    0 ≤ labA.x ∧ 0 ≤ labA.y ∧ labA.x + labA.width ≤ stdOpts.canvasWidth ∧
      labA.y + labA.height ≤ stdOpts.canvasHeight :=
  placed_labels_within_canvas pxBackend axisDirs stdOpts [nodeA, nodeB] [] []
    labA (by with_unfolding_all decide)

/-- Witness for claim C5 (amended) at a concrete input: the placed label of
`nodeA` originates from a node with fully defined geometry. -/
theorem output_labels_from_defined_nodes_witness :
    originOk [nodeA, nodeB] labA :=
  output_labels_from_defined_nodes pxBackend axisDirs stdOpts [nodeA, nodeB]
    [] [] labA (Or.inl (by with_unfolding_all decide))

/-- Witness for claim C6 at a concrete input: with detached labels disabled
the label placed for `nodeA` carries no leader line. -/
theorem no_leader_lines_when_detached_disabled_witness :
    labA.hasLeaderLine = false :=
  no_leader_lines_when_detached_disabled pxBackend axisDirs noDetOpts
    [nodeA] [] [] rfl labA (by with_unfolding_all decide)

/-- Witness for claim C7 (amended) at a concrete input: a colon-free font
and the empty cache give exactly the backend width. -/
theorem measureText_faithful_witness :
    (measureText lenBackend [] "hello" "12px s").1 =
      lenBackend "12px s" "hello" :=
  (measureText_faithful_when_fonts_colon_free lenBackend [] "hello" "12px s"
    (by decide)
    (by intro f t v h1 h2; simp [cacheLookup] at h2)).1

/-- Witness for claim C8 at a concrete input: two equal-height nodes keep
their input order in the attempt order. -/
theorem sort_desc_by_height_stable_witness :
    [nodeE1, nodeE2].Sublist (sortedNodesByHeight [nodeE1, nodeE2, nodeA]) :=
  (sort_desc_by_height_stable [nodeE1, nodeE2, nodeA]).2.2 nodeE1 nodeE2
    (by with_unfolding_all decide) (by decide)

/-- Witness for claim C10 at a concrete input: the detached label of `dNode`
lies exactly one 15-unit ring step from its anchor, within the threshold. -/
theorem detached_labels_on_rings_witness :
    ∃ k : ℕ, 1 ≤ k ∧
      ((dLab.x + dLab.width / 2) - dLab.anchorX) ^ 2 +
        ((dLab.y + dLab.height / 2) - dLab.anchorY) ^ 2 = ((15 * k : ℚ)) ^ 2 ∧
      ((15 * k : ℚ)) ≤ narrowDetOpts.leaderLineThreshold :=
  detached_labels_on_rings pxBackend axisDirs narrowDetOpts [dNode] [] []
    (by intro v hv
        fin_cases hv <;> norm_num [axisDirs])
    dLab (by with_unfolding_all decide) rfl

end IdyllSankey

